import Mathlib

/-!
Verification of the tool-dispatch core of a minimal tool-using agent.

The development shallowly embeds the TypeScript sources:
- `src/agent/tools.ts` — `Tool`, `ToolRegistry` (register / get / has / execute / list);
- `src/agent/executor.ts` — `AgentExecutor.processMessage`, `buildSystemPrompt`,
  `parseToolCall` (the regex `Using tool:\s*([\w-]+)\s+with params:\s*(\x7b.*\x7d)` with
  the `i` flag), together with `JSON.parse` / `JSON.stringify` as used by them.

Promises are embedded as settled outcomes: a tool's `execute` maps its argument object to
either a resolved JSON value or a rejected JavaScript value (an `Error` carrying a message,
or any non-`Error` value).  The model transport is an external collaborator; it is embedded
as a function from the call index (0 = first call of one `processMessage` invocation,
1 = second) and the prompt text to a settled outcome.  `processMessage` returns its own
settled outcome together with the list of prompts it sent, in order, so that theorems can
speak about the number of transport calls and the prompt contents.
-/

namespace Agent

/-- JSON values.  Numbers keep their source lexeme: no claim inspects numeric
values, and this avoids attributing floating-point semantics to the embedding. -/
inductive Json where
  | null
  | bool (b : Bool)
  | num (lexeme : String)
  | str (s : String)
  | arr (elems : List Json)
  | obj (fields : List (String × Json))

/-! ### JSON.parse -/

/-- JSON whitespace (the four characters accepted between tokens by `JSON.parse`). -/
def jsonWs (c : Char) : Bool :=
  c = ' ' || c = '\t' || c = '\n' || c = '\r'

def skipWs (l : List Char) : List Char := l.dropWhile jsonWs

def hexVal (c : Char) : Option Nat :=
  if 48 ≤ c.toNat ∧ c.toNat ≤ 57 then some (c.toNat - 48)
  else if 97 ≤ c.toNat ∧ c.toNat ≤ 102 then some (c.toNat - 87)
  else if 65 ≤ c.toNat ∧ c.toNat ≤ 70 then some (c.toNat - 55)
  else none

/-- Parse the body of a JSON string, after the opening quote; returns the decoded
content and the input remaining after the closing quote. -/
def parseStringBody : Nat → List Char → Option (String × List Char)
  | 0, _ => none
  | _ + 1, [] => none
  | fuel + 1, c :: rest =>
    if c = '"' then some ("", rest)
    else if c = '\\' then
      match rest with
      | [] => none
      | e :: rest2 =>
        let dec : Option (Char × List Char) :=
          if e = '"' then some ('"', rest2)
          else if e = '\\' then some ('\\', rest2)
          else if e = '/' then some ('/', rest2)
          else if e = 'b' then some ('\x08', rest2)
          else if e = 'f' then some ('\x0c', rest2)
          else if e = 'n' then some ('\n', rest2)
          else if e = 'r' then some ('\r', rest2)
          else if e = 't' then some ('\t', rest2)
          else if e = 'u' then
            match rest2 with
            | h1 :: h2 :: h3 :: h4 :: rest3 =>
              match hexVal h1, hexVal h2, hexVal h3, hexVal h4 with
              | some a, some b, some c3, some d =>
                some (Char.ofNat (((a * 16 + b) * 16 + c3) * 16 + d), rest3)
              | _, _, _, _ => none
            | _ => none
          else none
        match dec with
        | some (ch, rem) =>
          match parseStringBody fuel rem with
          | some (s, rem2) => some (⟨ch :: s.data⟩, rem2)
          | none => none
        | none => none
    else if c.toNat < 32 then none
    else
      match parseStringBody fuel rest with
      | some (s, rem2) => some (⟨c :: s.data⟩, rem2)
      | none => none

/-- Parse the fraction part of a JSON number, if present.  Returns its lexeme. -/
def parseFrac (l : List Char) : Option (List Char × List Char) :=
  match l with
  | '.' :: rest =>
    let ds := rest.takeWhile Char.isDigit
    if ds.isEmpty then none else some ('.' :: ds, rest.dropWhile Char.isDigit)
  | _ => some ([], l)

/-- Parse the exponent part of a JSON number, if present.  Returns its lexeme. -/
def parseExp (l : List Char) : Option (List Char × List Char) :=
  match l with
  | c :: rest =>
    if c = 'e' ∨ c = 'E' then
      let (sign, r2) : List Char × List Char :=
        match rest with
        | s :: r => if s = '+' ∨ s = '-' then ([s], r) else ([], s :: r)
        | [] => ([], [])
      let ds := r2.takeWhile Char.isDigit
      if ds.isEmpty then none else some (c :: (sign ++ ds), r2.dropWhile Char.isDigit)
    else some ([], c :: rest)
  | [] => some ([], [])

/-- Parse a JSON number; returns its lexeme. -/
def parseNumber (l : List Char) : Option (String × List Char) :=
  let (neg, l1) : List Char × List Char :=
    match l with
    | '-' :: rest => (['-'], rest)
    | _ => ([], l)
  match l1 with
  | [] => none
  | c :: rest =>
    let intPart : Option (List Char × List Char) :=
      if c = '0' then some (['0'], rest)
      else if c.isDigit then some (c :: rest.takeWhile Char.isDigit, rest.dropWhile Char.isDigit)
      else none
    match intPart with
    | none => none
    | some (ip, rem1) =>
      match parseFrac rem1 with
      | none => none
      | some (fp, rem2) =>
        match parseExp rem2 with
        | none => none
        | some (ep, rem3) => some (⟨neg ++ ip ++ fp ++ ep⟩, rem3)

mutual

/-- Parse one JSON value (fuel-indexed recursive descent mirroring `JSON.parse`). -/
def parseValue : Nat → List Char → Option (Json × List Char)
  | 0, _ => none
  | _ + 1, [] => none
  | fuel + 1, c :: rest =>
    if c = Char.ofNat 123 then
      let l1 := skipWs rest
      match l1 with
      | d :: rest2 =>
        if d = Char.ofNat 125 then some (.obj [], rest2)
        else
          match parseMembers fuel l1 with
          | some (fields, rem) =>
            match skipWs rem with
            | e :: rest3 => if e = Char.ofNat 125 then some (.obj fields, rest3) else none
            | [] => none
          | none => none
      | [] => none
    else if c = '[' then
      let l1 := skipWs rest
      match l1 with
      | d :: rest2 =>
        if d = ']' then some (.arr [], rest2)
        else
          match parseElements fuel l1 with
          | some (elems, rem) =>
            match skipWs rem with
            | e :: rest3 => if e = ']' then some (.arr elems, rest3) else none
            | [] => none
          | none => none
      | [] => none
    else if c = '"' then
      match parseStringBody (fuel + 1) rest with
      | some (s, rem) => some (.str s, rem)
      | none => none
    else if c = 't' then
      match rest with
      | 'r' :: 'u' :: 'e' :: rem => some (.bool true, rem)
      | _ => none
    else if c = 'f' then
      match rest with
      | 'a' :: 'l' :: 's' :: 'e' :: rem => some (.bool false, rem)
      | _ => none
    else if c = 'n' then
      match rest with
      | 'u' :: 'l' :: 'l' :: rem => some (.null, rem)
      | _ => none
    else
      match parseNumber (c :: rest) with
      | some (lex, rem) => some (.num lex, rem)
      | none => none

/-- Parse the members of a non-empty JSON object, up to (not including) the
closing brace. -/
def parseMembers : Nat → List Char → Option (List (String × Json) × List Char)
  | 0, _ => none
  | fuel + 1, l =>
    match l with
    | '"' :: rest =>
      match parseStringBody (fuel + 1) rest with
      | some (key, rem) =>
        match skipWs rem with
        | ':' :: rem2 =>
          match parseValue fuel (skipWs rem2) with
          | some (v, rem3) =>
            match skipWs rem3 with
            | ',' :: rem4 =>
              match parseMembers fuel (skipWs rem4) with
              | some (fields, rem5) => some ((key, v) :: fields, rem5)
              | none => none
            | rem4 => some ([(key, v)], rem4)
          | none => none
        | _ => none
      | none => none
    | _ => none

/-- Parse the elements of a non-empty JSON array, up to (not including) the
closing bracket. -/
def parseElements : Nat → List Char → Option (List Json × List Char)
  | 0, _ => none
  | fuel + 1, l =>
    match parseValue fuel l with
    | some (v, rem) =>
      match skipWs rem with
      | ',' :: rem2 =>
        match parseElements fuel (skipWs rem2) with
        | some (elems, rem3) => some (v :: elems, rem3)
        | none => none
      | rem2 => some ([v], rem2)
    | none => none

end

/-- `JSON.parse`: parse a complete JSON document; fails if anything but
whitespace remains. -/
def jsonParse (s : String) : Option Json :=
  match parseValue (s.length + 1) (skipWs s.data) with
  | some (v, rem) => if (skipWs rem).isEmpty then some v else none
  | none => none

/-! ### JSON.stringify -/

def hexDigit (n : Nat) : Char :=
  if n < 10 then Char.ofNat (48 + n) else Char.ofNat (87 + n)

/-- Serialize one character of a JSON string the way `JSON.stringify` does. -/
def escapeChar (c : Char) : List Char :=
  if c = '"' then ['\\', '"']
  else if c = '\\' then ['\\', '\\']
  else if c = '\x08' then ['\\', 'b']
  else if c = '\x0c' then ['\\', 'f']
  else if c = '\n' then ['\\', 'n']
  else if c = '\r' then ['\\', 'r']
  else if c = '\t' then ['\\', 't']
  else if c.toNat < 32 then
    ['\\', 'u', hexDigit (c.toNat / 4096 % 16), hexDigit (c.toNat / 256 % 16),
     hexDigit (c.toNat / 16 % 16), hexDigit (c.toNat % 16)]
  else [c]

def stringifyString (s : String) : String :=
  ⟨'"' :: (s.data.map escapeChar).flatten ++ ['"']⟩

mutual

/-- `JSON.stringify` on (JSON-serializable) values. -/
def stringify : Json → String
  | .null => "null"
  | .bool b => cond b "true" "false"
  | .num lexeme => lexeme
  | .str s => stringifyString s
  | .arr elems => "[" ++ stringifyElems elems ++ "]"
  | .obj fields => "\x7b" ++ stringifyMembers fields ++ "\x7d"

def stringifyElems : List Json → String
  | [] => ""
  | [x] => stringify x
  | x :: y :: rest => stringify x ++ "," ++ stringifyElems (y :: rest)

def stringifyMembers : List (String × Json) → String
  | [] => ""
  | [(k, v)] => stringifyString k ++ ":" ++ stringify v
  | (k, v) :: p :: rest => stringifyString k ++ ":" ++ stringify v ++ "," ++ stringifyMembers (p :: rest)

end

/-! ### The tool-call regex

`parseToolCall` matches `/Using tool:\s*([\w-]+)\s+with params:\s*(\x7b.*\x7d)/i`
against the model response.  The pattern's pieces have pairwise disjoint character
classes at every boundary (whitespace never begins the following literal, a word
character never extends into required whitespace), so greedy matching without
backtracking is exact; the final `.*` is greedy and `.` does not cross line
terminators, so the captured JSON segment runs to the last closing brace in the
line.  The leftmost match is found by attempting the pattern at every start
position in order. -/

/-- ASCII case folding as performed by a case-insensitive, non-Unicode-mode
JavaScript regex on ASCII pattern characters. -/
def foldCaseNat (c : Char) : Nat :=
  if 65 ≤ c.toNat then if c.toNat ≤ 90 then c.toNat + 32 else c.toNat else c.toNat

/-- JavaScript regex `\w`: ASCII letters, digits, underscore. -/
def wordChar (c : Char) : Bool :=
  (decide (65 ≤ c.toNat) && decide (c.toNat ≤ 90)) ||
  (decide (97 ≤ c.toNat) && decide (c.toNat ≤ 122)) ||
  (decide (48 ≤ c.toNat) && decide (c.toNat ≤ 57)) ||
  c.toNat == 95

/-- The character class `[\w-]` used for the tool name. -/
def nameChar (c : Char) : Bool := wordChar c || c.toNat == 45

/-- JavaScript regex `\s`. -/
def jsSpace (c : Char) : Bool :=
  c.toNat == 32 || (decide (9 ≤ c.toNat) && decide (c.toNat ≤ 13)) ||
  c.toNat == 160 || c.toNat == 5760 ||
  (decide (8192 ≤ c.toNat) && decide (c.toNat ≤ 8202)) ||
  c.toNat == 8232 || c.toNat == 8233 || c.toNat == 8239 || c.toNat == 8287 ||
  c.toNat == 12288 || c.toNat == 65279

/-- JavaScript regex `.` (without the `s` flag): anything but a line terminator. -/
def dotChar (c : Char) : Bool :=
  !(c.toNat == 10 || c.toNat == 13 || c.toNat == 8232 || c.toNat == 8233)

def lbrace : Char := Char.ofNat 123
def rbrace : Char := Char.ofNat 125

/-- Match a literal pattern case-insensitively at the head of the input;
returns the remaining input. -/
def matchLitCI : List Char → List Char → Option (List Char)
  | [], l => some l
  | _ :: _, [] => none
  | p :: ps, c :: cs =>
    if foldCaseNat p = foldCaseNat c then matchLitCI ps cs else none

/-- The prefix of `seg` up to and including its last closing brace, if any
(the greedy `.*\x7d` applied to a run of non-terminator characters). -/
def lastCloseBrace : List Char → Option (List Char)
  | [] => none
  | c :: rest =>
    match lastCloseBrace rest with
    | some g => some (c :: g)
    | none => if c = rbrace then some [c] else none

/-- Attempt the tool-call pattern at this exact start position.  Returns the
two capture groups (name, JSON segment). -/
def tryMatchAt (l : List Char) : Option (String × String) :=
  match matchLitCI "Using tool:".data l with
  | none => none
  | some l1 =>
    let l2 := l1.dropWhile jsSpace
    let name := l2.takeWhile nameChar
    let l3 := l2.dropWhile nameChar
    if name.isEmpty then none
    else if (l3.takeWhile jsSpace).isEmpty then none
    else
      let l4 := l3.dropWhile jsSpace
      match matchLitCI "with params:".data l4 with
      | none => none
      | some l5 =>
        match l5.dropWhile jsSpace with
        | c :: rest =>
          if c = lbrace then
            match lastCloseBrace (rest.takeWhile dotChar) with
            | some g => some (⟨name⟩, ⟨lbrace :: g⟩)
            | none => none
          else none
        | [] => none

/-- Leftmost match of the tool-call pattern: attempt every start position in order. -/
def findToolMatch : List Char → Option (String × String)
  | [] => none
  | c :: rest =>
    match tryMatchAt (c :: rest) with
    | some r => some r
    | none => findToolMatch rest

/-! ### Tools and the registry (`src/agent/tools.ts`) -/

/-- A JavaScript value thrown/rejected with: an `Error` (only its `message` is
ever consumed by this code) or any non-`Error` value. -/
inductive JsError where
  | errorObj (message : String)
  | nonError (value : Json)

/-- `error instanceof Error ? error.message : "Unknown error"` (executor.ts line 78). -/
def jsErrorMessage : JsError → String
  | .errorObj message => message
  | .nonError _ => "Unknown error"

/-- The settled outcome of a tool execution promise. -/
inductive ExecOutcome where
  | resolve (v : Json)
  | reject (e : JsError)

/-- A tool (`Tool` interface in tools.ts): name, description, parameter schema,
and the execute function, embedded as its settled outcome per argument object. -/
structure Tool where
  name : String
  description : String
  parameters : Json
  execute : Json → ExecOutcome

/-- `ToolRegistry`: a JavaScript `Map` keyed by tool name, in insertion order.
All construction goes through `register`, which keeps names unique, so an
insertion-ordered list of tools is an exact model. -/
structure ToolRegistry where
  tools : List Tool

/-- `ToolRegistry.get`. -/
def ToolRegistry.get (r : ToolRegistry) (name : String) : Option Tool :=
  r.tools.find? (fun t => t.name == name)

/-- `ToolRegistry.has`. -/
def ToolRegistry.has (r : ToolRegistry) (name : String) : Bool :=
  (r.get name).isSome

/-- `ToolRegistry.register`: throws on a duplicate name, leaving the map
untouched; otherwise appends.  Returns the outcome and the post-state. -/
def ToolRegistry.register (r : ToolRegistry) (t : Tool) :
    Except JsError Unit × ToolRegistry :=
  if r.has t.name then
    (.error (.errorObj ("Tool already registered: " ++ t.name)), r)
  else
    (.ok (), ⟨r.tools ++ [t]⟩)

/-- `ToolRegistry.list`. -/
def ToolRegistry.list (r : ToolRegistry) : List Tool := r.tools

/-- `ToolRegistry.listNames`. -/
def ToolRegistry.listNames (r : ToolRegistry) : List String :=
  r.tools.map Tool.name

/-- `ToolRegistry.count`. -/
def ToolRegistry.count (r : ToolRegistry) : Nat := r.tools.length

/-- `ToolRegistry.execute`: rejects with `Error("Tool not found: " + name)` when
the name is unregistered, otherwise propagates the tool's own outcome untouched. -/
def ToolRegistry.execute (r : ToolRegistry) (name : String) (params : Json) : ExecOutcome :=
  match r.get name with
  | none => .reject (.errorObj ("Tool not found: " ++ name))
  | some t => t.execute params

/-- Register each tool of a list in turn, failing (as startup would) on the
first duplicate name. -/
def registerAll : ToolRegistry → List Tool → Option ToolRegistry
  | r, [] => some r
  | r, t :: rest =>
    match r.register t with
    | (.ok _, r2) => registerAll r2 rest
    | (.error _, _) => none

/-! ### The executor (`src/agent/executor.ts`) -/

/-- `parseToolCall`'s result. -/
structure ToolCall where
  name : String
  params : Json

/-- `AgentExecutor.parseToolCall`: leftmost regex match, then `JSON.parse` on
the captured segment; any JSON failure degrades to "no tool call". -/
def parseToolCall (response : String) : Option ToolCall :=
  match findToolMatch response.data with
  | none => none
  | some (nm, jsonStr) =>
    match jsonParse jsonStr with
    | some params => some ⟨nm, params⟩
    | none => none

/-- One line of the tool enumeration in the system prompt. -/
def toolDescription (t : Tool) : String :=
  "- " ++ t.name ++ ": " ++ t.description ++ "\n  Parameters: " ++ stringify t.parameters

/-- `AgentExecutor.buildSystemPrompt`. -/
def buildSystemPrompt (tools : ToolRegistry) : String :=
  "You are a helpful AI assistant with access to the following tools:\n\n" ++
  String.intercalate "\n" (tools.list.map toolDescription) ++
  "\n\nWhen you need to use a tool, format your response as:\n\"Using tool: <tool_name> with params: <json_params>\"\n\nFor example:\n\"Using tool: echo with params: \x7b\"message\":\"hello\"\x7d\"\n\nAlways explain what you\x27re doing before using a tool."

/-- The composed first prompt of `processMessage`. -/
def initialPrompt (tools : ToolRegistry) (message : String) : String :=
  buildSystemPrompt tools ++ "\n\nUser: " ++ message ++ "\nAssistant:"

/-- The follow-up ("Summarize") prompt of `processMessage`. -/
def followUpPrompt (message toolName : String) (toolResult : Json) : String :=
  "You just used the " ++ toolName ++ " tool and got this result: " ++ stringify toolResult ++
  "\n\nPlease provide a helpful, natural response to the user\x27s question using this information.\nDo NOT mention using a tool or repeat the tool call format. Just answer naturally.\n\nUser\x27s question: " ++ message

/-- A model transport response (`GLMMessageResponse`: only `content` is consumed). -/
structure LLMResponse where
  content : String

/-- The model transport, an external collaborator: maps the call index within one
`processMessage` invocation (0 = first, 1 = second) and the prompt to a settled
outcome.  Indexing by call lets one client value script distinct successive
behaviors, as a stateful HTTP client can exhibit. -/
structure LLMClient where
  sendMessage : Nat → String → Except JsError LLMResponse

/-- The settled outcome of the promise returned by `processMessage`. -/
inductive PMResult where
  | resolved (s : String)
  | rejected (e : JsError)

/-- Outcome of one `processMessage` invocation, together with the prompts sent
to the transport, in order. -/
structure PMRun where
  result : PMResult
  promptsSent : List String

/-- `AgentExecutor.processMessage`.  Note the `try` block in the source wraps
the tool execution, the follow-up `sendMessage`, and the final `return`: a
rejection of the second transport call is caught by the same `catch` as a tool
failure.  A rejection of the first transport call happens outside the `try`
and propagates. -/
def processMessage (llmClient : LLMClient) (tools : ToolRegistry) (message : String) : PMRun :=
  let prompt := initialPrompt tools message
  match llmClient.sendMessage 0 prompt with
  | .error e => ⟨.rejected e, [prompt]⟩
  | .ok response =>
    match parseToolCall response.content with
    | some toolCall =>
      match tools.execute toolCall.name toolCall.params with
      | .reject error =>
        ⟨.resolved ("Error executing tool " ++ toolCall.name ++ ": " ++ jsErrorMessage error),
         [prompt]⟩
      | .resolve toolResult =>
        let fup := followUpPrompt message toolCall.name toolResult
        match llmClient.sendMessage 1 fup with
        | .error error =>
          ⟨.resolved ("Error executing tool " ++ toolCall.name ++ ": " ++ jsErrorMessage error),
           [prompt, fup]⟩
        | .ok finalResponse => ⟨.resolved finalResponse.content, [prompt, fup]⟩
    | none => ⟨.resolved response.content, [prompt]⟩

/-- Substring containment, as "the resolved string contains the capability name". -/
def strContains (s pat : String) : Prop := pat.data <:+: s.data

/-! ### Concrete fixtures (registries, tools, scripted transports) -/

def echoTool : Tool where
  name := "echo"
  description := "Echoes the message"
  parameters := Json.obj [("type", Json.str "object")]
  execute := fun p => .resolve (Json.obj [("echoed", p)])

def brokenTool : Tool where
  name := "broken"
  description := "Always fails"
  parameters := Json.obj [("type", Json.str "object")]
  execute := fun _ => .reject (.errorObj "disk full")

def bareRejectTool : Tool where
  name := "bare"
  description := "Rejects a non-Error value"
  parameters := Json.obj [("type", Json.str "object")]
  execute := fun _ => .reject (.nonError (Json.str "disk full"))

/-- A second descriptor carrying an already-taken name. -/
def echoClone : Tool where
  name := "echo"
  description := "A second echo"
  parameters := Json.obj []
  execute := fun _ => .resolve Json.null

def demoRegistry : ToolRegistry := ⟨[echoTool, brokenTool, bareRejectTool]⟩

/-- Transport whose first response requests `echo`; its second response again
contains a tool-call marker, to exhibit that it is not re-parsed. -/
def clientEchoFlow : LLMClient :=
  ⟨fun i _ => if i = 0 then .ok ⟨"Using tool: echo with params: \x7b\"message\":\"hi\"\x7d"⟩
              else .ok ⟨"Using tool: echo with params: \x7b\"message\":\"again\"\x7d"⟩⟩

def clientNoTool : LLMClient := ⟨fun _ _ => .ok ⟨"Hello there!"⟩⟩

def clientMalformedJson : LLMClient :=
  ⟨fun _ _ => .ok ⟨"Using tool: echo with params: \x7bnot json\x7d"⟩⟩

def clientBroken : LLMClient := ⟨fun _ _ => .ok ⟨"Using tool: broken with params: \x7b\x7d"⟩⟩

def clientBare : LLMClient := ⟨fun _ _ => .ok ⟨"Using tool: bare with params: \x7b\x7d"⟩⟩

def clientNotFound : LLMClient := ⟨fun _ _ => .ok ⟨"Using tool: missing with params: \x7b\x7d"⟩⟩

def clientFirstFails : LLMClient := ⟨fun _ _ => .error (.errorObj "socket hang up")⟩

/-- Transport that answers the first call with an `echo` request and rejects the second. -/
def clientSecondFails : LLMClient :=
  ⟨fun i _ => if i = 0 then .ok ⟨"Using tool: echo with params: \x7b\x7d"⟩
              else .error (.errorObj "socket hang up")⟩

/-! ## Helper lemmas -/

theorem strContains_intro (s p : String) (x y : List Char)
    (h : s.data = x ++ p.data ++ y) : strContains s p :=
  ⟨x, y, h.symm⟩

theorem registry_get_eq_none_of_has_eq_false (r : ToolRegistry) (n : String)
    (h : r.has n = false) : r.get n = none := by
  unfold ToolRegistry.has at h
  exact Option.not_isSome_iff_eq_none.mp (by simp [h])

theorem registerAll_ok (ts : List Tool) : ∀ (r : ToolRegistry),
    (∀ t ∈ ts, r.has t.name = false) →
    (ts.map Tool.name).Nodup →
    registerAll r ts = some ⟨r.tools ++ ts⟩ := by
  induction ts with
  | nil => intro r _ _; simp [registerAll]
  | cons t rest ih =>
    intro r hdisj hnodup
    have hhas : r.has t.name = false := hdisj t (by simp)
    have hstep : r.register t = (.ok (), ⟨r.tools ++ [t]⟩) := by
      simp [ToolRegistry.register, hhas]
    have hdisj2 : ∀ u ∈ rest, (ToolRegistry.mk (r.tools ++ [t])).has u.name = false := by
      intro u hu
      have h1 : r.get u.name = none :=
        registry_get_eq_none_of_has_eq_false r u.name (hdisj u (by simp [hu]))
      have h2 : t.name ≠ u.name := by
        have := (List.nodup_cons.mp hnodup).1
        intro heq
        exact this (heq ▸ List.mem_map_of_mem Tool.name hu)
      simp [ToolRegistry.has, ToolRegistry.get, List.find?_append] at h1 ⊢
      refine ⟨fun x hx hb => h1 x hx hb, fun hb => h2 (by simpa using hb)⟩
    have hrest := ih ⟨r.tools ++ [t]⟩ hdisj2 (List.nodup_cons.mp hnodup).2
    simp only [registerAll, hstep, hrest]
    simp

theorem data_mk (l : List Char) : (String.mk l).data = l := rfl

theorem jsSpace_eq_false_of_nameChar (c : Char) (h : nameChar c = true) :
    jsSpace c = false := by
  cases hb : jsSpace c
  · rfl
  · exfalso
    simp only [nameChar, wordChar, Bool.or_eq_true, Bool.and_eq_true,
      decide_eq_true_eq, beq_iff_eq] at h
    simp only [jsSpace, Bool.or_eq_true, Bool.and_eq_true, decide_eq_true_eq,
      beq_iff_eq] at hb
    omega

theorem dotChar_of_nameChar (c : Char) (h : nameChar c = true) : dotChar c = true := by
  simp only [nameChar, wordChar, Bool.or_eq_true, Bool.and_eq_true,
    decide_eq_true_eq, beq_iff_eq] at h
  simp only [dotChar, Bool.not_eq_true', Bool.or_eq_false_iff, beq_eq_false_iff_ne, ne_eq]
  omega

theorem jsSpace_eq_false_of_foldCase_w (w : Char) (h : foldCaseNat w = 119) :
    jsSpace w = false := by
  cases hb : jsSpace w
  · rfl
  · exfalso
    simp only [foldCaseNat] at h
    simp only [jsSpace, Bool.or_eq_true, Bool.and_eq_true, decide_eq_true_eq,
      beq_iff_eq] at hb
    split at h
    · split at h <;> omega
    · omega

theorem matchLitCI_of_foldEq : ∀ (pat m rest : List Char),
    pat.map foldCaseNat = m.map foldCaseNat →
    matchLitCI pat (m ++ rest) = some rest
  | [], [], rest, _ => rfl
  | [], _ :: _, _, h => by simp at h
  | _ :: _, [], _, h => by simp at h
  | p :: ps, c :: cs, rest, h => by
    simp only [List.map_cons, List.cons.injEq] at h
    simpa [matchLitCI, h.1] using matchLitCI_of_foldEq ps cs rest h.2

theorem takeWhile_name_prefix (p : Char → Bool) : ∀ (l1 : List Char) (c : Char) (l2 : List Char),
    (∀ x ∈ l1, p x = true) → p c = false →
    (l1 ++ c :: l2).takeWhile p = l1 ∧ (l1 ++ c :: l2).dropWhile p = c :: l2
  | [], c, l2, _, hc => by simp [List.takeWhile_cons, List.dropWhile_cons, hc]
  | a :: l1, c, l2, h, hc => by
    have ha : p a = true := h a (by simp)
    have ih := takeWhile_name_prefix p l1 c l2 (fun x hx => h x (by simp [hx])) hc
    simp [List.takeWhile_cons, List.dropWhile_cons, ha, ih.1, ih.2]

theorem takeWhile_eq_self_of_all (p : Char → Bool) : ∀ (l : List Char),
    (∀ c ∈ l, p c = true) → l.takeWhile p = l
  | [], _ => rfl
  | c :: rest, h => by
    simp [List.takeWhile_cons, h c (by simp),
      takeWhile_eq_self_of_all p rest (fun x hx => h x (by simp [hx]))]

theorem findToolMatch_cons (c : Char) (rest : List Char) :
    findToolMatch (c :: rest) =
      match tryMatchAt (c :: rest) with
      | some r => some r
      | none => findToolMatch rest := rfl

theorem lastCloseBrace_append_rbrace : ∀ (xs : List Char),
    lastCloseBrace (xs ++ [rbrace]) = some (xs ++ [rbrace])
  | [] => rfl
  | c :: xs => by
    have ih := lastCloseBrace_append_rbrace xs
    show lastCloseBrace (c :: (xs ++ [rbrace])) = some (c :: (xs ++ [rbrace]))
    unfold lastCloseBrace
    rw [ih]

/-- Core matcher lemma: at a start position spelling the tool-call convention
(any casing of the two literals, a `[\\w-]+` name, single separating spaces, and
an opening brace), the pattern matches and captures the name and the greedy
brace segment determined by `lastCloseBrace` of the `.`-run. -/
theorem tryMatchAt_canonical (m1 : List Char) (w : Char) (ms : List Char)
    (c0 : Char) (nmtl : List Char) (seg g : List Char)
    (hm1 : m1.map foldCaseNat = "Using tool:".data.map foldCaseNat)
    (hm2 : (w :: ms).map foldCaseNat = "with params:".data.map foldCaseNat)
    (hchars : ∀ c ∈ c0 :: nmtl, nameChar c = true)
    (hg : lastCloseBrace (seg.takeWhile dotChar) = some g) :
    tryMatchAt (m1 ++ ' ' :: c0 :: (nmtl ++ ' ' :: w :: (ms ++ ' ' :: lbrace :: seg))) =
      some (⟨c0 :: nmtl⟩, ⟨lbrace :: g⟩) := by
  have hsp : jsSpace ' ' = true := by decide
  have hlb : jsSpace lbrace = false := by decide
  have hw : foldCaseNat w = 119 := by
    have h : foldCaseNat w :: ms.map foldCaseNat =
        119 :: "ith params:".data.map foldCaseNat := by
      rw [← List.map_cons, hm2]; rfl
    exact (List.cons.inj h).1
  have hwsp : jsSpace w = false := jsSpace_eq_false_of_foldCase_w w hw
  have hc0sp : jsSpace c0 = false := jsSpace_eq_false_of_nameChar c0 (hchars c0 (by simp))
  have hA := matchLitCI_of_foldEq ['U', 's', 'i', 'n', 'g', ' ', 't', 'o', 'o', 'l', ':'] m1
      (' ' :: c0 :: (nmtl ++ ' ' :: w :: (ms ++ ' ' :: lbrace :: seg))) hm1.symm
  have hB := matchLitCI_of_foldEq ['w', 'i', 't', 'h', ' ', 'p', 'a', 'r', 'a', 'm', 's', ':']
      (w :: ms) (' ' :: lbrace :: seg) hm2.symm
  have hname := takeWhile_name_prefix nameChar (c0 :: nmtl) ' '
      (w :: (ms ++ ' ' :: lbrace :: seg)) hchars (by decide)
  have h1 : List.dropWhile jsSpace
      (' ' :: c0 :: (nmtl ++ ' ' :: w :: (ms ++ ' ' :: lbrace :: seg))) =
      c0 :: (nmtl ++ ' ' :: w :: (ms ++ ' ' :: lbrace :: seg)) := by
    simp [List.dropWhile_cons, hsp, hc0sp]
  have h3 : (List.takeWhile jsSpace (' ' :: w :: (ms ++ ' ' :: lbrace :: seg))).isEmpty = false := by
    simp [List.takeWhile_cons, hsp]
  have h4 : List.dropWhile jsSpace (' ' :: w :: (ms ++ ' ' :: lbrace :: seg)) =
      w :: (ms ++ ' ' :: lbrace :: seg) := by
    simp [List.dropWhile_cons, hsp, hwsp]
  have h5 : List.dropWhile jsSpace (' ' :: lbrace :: seg) = lbrace :: seg := by
    simp [List.dropWhile_cons, hsp, hlb]
  simp only [List.cons_append] at hname hB
  simp only [tryMatchAt, hA, h1, hname.1, hname.2, h3, h4, hB, h5, hg,
    List.isEmpty_cons, Bool.false_eq_true, if_false, if_true]

/-- Leftmost-match version of `tryMatchAt_canonical`: the canonical spelling at
position 0 is the match `findToolMatch` returns. -/
theorem findToolMatch_canonical (m1 m2 : List Char) (nm : String) (seg g : List Char)
    (l : List Char)
    (hl : l = m1 ++ ' ' :: nm.data ++ ' ' :: m2 ++ ' ' :: lbrace :: seg)
    (hm1 : m1.map foldCaseNat = "Using tool:".data.map foldCaseNat)
    (hm2 : m2.map foldCaseNat = "with params:".data.map foldCaseNat)
    (hne : nm.data ≠ [])
    (hchars : ∀ c ∈ nm.data, nameChar c = true)
    (hg : lastCloseBrace (seg.takeWhile dotChar) = some g) :
    findToolMatch l = some (nm, ⟨lbrace :: g⟩) := by
  subst hl
  obtain ⟨ndata⟩ := nm
  simp only [data_mk] at hne hchars ⊢
  cases ndata with
  | nil => exact absurd rfl hne
  | cons c0 nmtl =>
    cases m1 with
    | nil => simp at hm1
    | cons a m1t =>
      cases m2 with
      | nil => simp at hm2
      | cons w ms =>
        have h := tryMatchAt_canonical (a :: m1t) w ms c0 nmtl seg g hm1 hm2 hchars hg
        have harg : (a :: m1t) ++ (' ' :: c0 :: nmtl) ++ (' ' :: w :: ms) ++
            (' ' :: lbrace :: seg) =
            a :: (m1t ++ (' ' :: c0 :: (nmtl ++ (' ' :: w :: (ms ++ (' ' :: lbrace :: seg)))))) := by
          simp
        rw [List.cons_append] at h
        rw [harg, findToolMatch_cons, h]

/-- `JSON.parse` fails when a complete empty object is followed by non-whitespace. -/
theorem jsonParse_obj_trailing (X : List Char) :
    jsonParse ⟨lbrace :: rbrace :: ' ' :: 'U' :: X⟩ = none := rfl

theorem jsonParse_braces : jsonParse ⟨[lbrace, rbrace]⟩ = some (Json.obj []) := rfl

/-! ## Claim theorems -/

/-- C7: registering a descriptor whose name is already present fails with the
duplicate-name error and leaves the registry unchanged, so the originally
registered descriptor is still retrievable — the second registration does not
replace the first. -/
theorem register_duplicate_rejected (r : ToolRegistry) (t t0 : Tool)
    (h : r.get t.name = some t0) :
    (r.register t).1 = .error (.errorObj ("Tool already registered: " ++ t.name)) ∧
    (r.register t).2 = r ∧
    (r.register t).2.get t.name = some t0 := by
  have hhas : r.has t.name = true := by simp [ToolRegistry.has, h]
  refine ⟨?_, ?_, ?_⟩ <;> simp [ToolRegistry.register, hhas, h]

theorem register_duplicate_rejected_witness :
    (demoRegistry.register echoClone).1 =
      .error (.errorObj "Tool already registered: echo") ∧
    (demoRegistry.register echoClone).2 = demoRegistry ∧
    (demoRegistry.register echoClone).2.get "echo" = some echoTool :=
  register_duplicate_rejected demoRegistry echoClone echoTool rfl

/-- C8: registering N distinctly named descriptors into a fresh registry
succeeds, and `list()` then returns exactly those N descriptors in
registration order. -/
theorem registerAll_list_roundtrip (ts : List Tool)
    (hnodup : (ts.map Tool.name).Nodup) :
    registerAll ⟨[]⟩ ts = some ⟨ts⟩ ∧ ToolRegistry.list ⟨ts⟩ = ts := by
  refine ⟨?_, rfl⟩
  have h := registerAll_ok ts ⟨[]⟩ (fun t _ => rfl) hnodup
  simpa using h

theorem registerAll_list_roundtrip_witness :
    ([echoTool, brokenTool, bareRejectTool].map Tool.name).Nodup ∧
    registerAll ⟨[]⟩ [echoTool, brokenTool, bareRejectTool] =
      some ⟨[echoTool, brokenTool, bareRejectTool]⟩ ∧
    ToolRegistry.list ⟨[echoTool, brokenTool, bareRejectTool]⟩ =
      [echoTool, brokenTool, bareRejectTool] :=
  ⟨by decide,
   (registerAll_list_roundtrip [echoTool, brokenTool, bareRejectTool] (by decide)).1,
   (registerAll_list_roundtrip [echoTool, brokenTool, bareRejectTool] (by decide)).2⟩

/-- C1 (amended): a rejection of the first transport call propagates unmodified
as the rejection of `processMessage`; a rejection of the second transport call,
however, is caught by the `catch` wrapped around tool execution (executor.ts
lines 62-79) and is converted into the resolved string
`Error executing tool <name>: <message>` — it does not reject. -/
theorem processMessage_transport_error_paths :
    (∀ (client : LLMClient) (tools : ToolRegistry) (message : String) (e : JsError),
       client.sendMessage 0 (initialPrompt tools message) = .error e →
       (processMessage client tools message).result = .rejected e ∧
       (processMessage client tools message).promptsSent = [initialPrompt tools message]) ∧
    (∀ (client : LLMClient) (tools : ToolRegistry) (message : String)
       (resp : LLMResponse) (tc : ToolCall) (v : Json) (e : JsError),
       client.sendMessage 0 (initialPrompt tools message) = .ok resp →
       parseToolCall resp.content = some tc →
       tools.execute tc.name tc.params = .resolve v →
       client.sendMessage 1 (followUpPrompt message tc.name v) = .error e →
       (processMessage client tools message).result =
         .resolved ("Error executing tool " ++ tc.name ++ ": " ++ jsErrorMessage e)) := by
  constructor
  · intro client tools message e h0
    exact ⟨by simp [processMessage, h0], by simp [processMessage, h0]⟩
  · intro client tools message resp tc v e h0 h1 h2 h3
    simp [processMessage, h0, h1, h2, h3]

/-- C1 counterexample: the transport's second call rejects with
`Error("socket hang up")`, yet `processMessage` resolves (with a tool-error
string) instead of rejecting with that transport error. -/
theorem processMessage_secondCall_transport_counterexample :
    (processMessage clientSecondFails demoRegistry "hi").result =
      .resolved "Error executing tool echo: socket hang up" ∧
    (processMessage clientSecondFails demoRegistry "hi").result ≠
      .rejected (.errorObj "socket hang up") := by
  have h1 : (processMessage clientSecondFails demoRegistry "hi").result =
      .resolved "Error executing tool echo: socket hang up" := rfl
  exact ⟨h1, fun h => PMResult.noConfusion (h1.symm.trans h)⟩

theorem processMessage_transport_error_paths_witness :
    ((processMessage clientFirstFails demoRegistry "hi").result =
       .rejected (.errorObj "socket hang up") ∧
     (processMessage clientFirstFails demoRegistry "hi").promptsSent =
       [initialPrompt demoRegistry "hi"]) ∧
    (processMessage clientSecondFails demoRegistry "hello").result =
      .resolved "Error executing tool echo: socket hang up" :=
  ⟨processMessage_transport_error_paths.1 clientFirstFails demoRegistry "hi"
     (.errorObj "socket hang up") rfl,
   processMessage_transport_error_paths.2 clientSecondFails demoRegistry "hello"
     ⟨"Using tool: echo with params: \x7b\x7d"⟩ ⟨"echo", Json.obj []⟩
     (Json.obj [("echoed", Json.obj [])]) (.errorObj "socket hang up") rfl rfl rfl rfl⟩

/-- C2: when a tool call is extracted and execution fails — the named capability
is unregistered (then the registry rejects with `Error("Tool not found: " + name)`,
second conjunct) or its execute function rejects — `processMessage` resolves
(never rejects) with a string containing the capability name and the failure
reason as rendered from the rejection (an `Error`'s message, or `"Unknown error"`
for a non-`Error` rejection, cf. C10), and no second transport call is sent. -/
theorem processMessage_toolFailure_resolves :
    (∀ (client : LLMClient) (tools : ToolRegistry) (message : String)
       (resp : LLMResponse) (tc : ToolCall) (e : JsError),
       client.sendMessage 0 (initialPrompt tools message) = .ok resp →
       parseToolCall resp.content = some tc →
       tools.execute tc.name tc.params = .reject e →
       (processMessage client tools message).result =
         .resolved ("Error executing tool " ++ tc.name ++ ": " ++ jsErrorMessage e) ∧
       strContains ("Error executing tool " ++ tc.name ++ ": " ++ jsErrorMessage e) tc.name ∧
       strContains ("Error executing tool " ++ tc.name ++ ": " ++ jsErrorMessage e)
         (jsErrorMessage e) ∧
       (processMessage client tools message).promptsSent = [initialPrompt tools message]) ∧
    (∀ (tools : ToolRegistry) (n : String) (params : Json),
       tools.get n = none →
       tools.execute n params = .reject (.errorObj ("Tool not found: " ++ n))) := by
  constructor
  · intro client tools message resp tc e h0 h1 h2
    refine ⟨?_, ?_, ?_, ?_⟩
    · simp [processMessage, h0, h1, h2]
    · exact strContains_intro _ _ ("Error executing tool ").data
        (": " ++ jsErrorMessage e).data
        (by simp only [String.data_append, List.append_assoc])
    · exact strContains_intro _ _ ("Error executing tool " ++ tc.name ++ ": ").data []
        (by simp only [String.data_append, List.append_assoc, List.append_nil])
    · simp [processMessage, h0, h1, h2]
  · intro tools n params h
    simp [ToolRegistry.execute, h]

theorem processMessage_toolFailure_resolves_witness :
    ((processMessage clientBroken demoRegistry "hi").result =
       .resolved "Error executing tool broken: disk full" ∧
     strContains "Error executing tool broken: disk full" "broken" ∧
     strContains "Error executing tool broken: disk full" "disk full" ∧
     (processMessage clientBroken demoRegistry "hi").promptsSent =
       [initialPrompt demoRegistry "hi"]) ∧
    demoRegistry.execute "missing" (Json.obj []) =
      .reject (.errorObj "Tool not found: missing") :=
  ⟨processMessage_toolFailure_resolves.1 clientBroken demoRegistry "hi"
     ⟨"Using tool: broken with params: \x7b\x7d"⟩ ⟨"broken", Json.obj []⟩
     (.errorObj "disk full") rfl rfl rfl,
   processMessage_toolFailure_resolves.2 demoRegistry "missing" (Json.obj []) rfl⟩

/-- C3: when a tool call is extracted and the named capability's execute
function resolves, exactly the two prompts are sent to the transport, the
second prompt contains the JSON-serialized execution result, and whatever
content the second transport response carries is returned verbatim — in
particular content that itself contains another tool-call marker, which is
not re-parsed and triggers no further execution. -/
theorem processMessage_toolSuccess_twoCalls
    (client : LLMClient) (tools : ToolRegistry) (message : String)
    (resp : LLMResponse) (tc : ToolCall) (v : Json)
    (h0 : client.sendMessage 0 (initialPrompt tools message) = .ok resp)
    (h1 : parseToolCall resp.content = some tc)
    (h2 : tools.execute tc.name tc.params = .resolve v) :
    (processMessage client tools message).promptsSent =
      [initialPrompt tools message, followUpPrompt message tc.name v] ∧
    strContains (followUpPrompt message tc.name v) (stringify v) ∧
    (∀ finalResp : LLMResponse,
      client.sendMessage 1 (followUpPrompt message tc.name v) = .ok finalResp →
      (processMessage client tools message).result = .resolved finalResp.content) := by
  refine ⟨?_, ?_, ?_⟩
  · cases hsnd : client.sendMessage 1 (followUpPrompt message tc.name v) with
    | error e => simp [processMessage, h0, h1, h2, hsnd]
    | ok fr => simp [processMessage, h0, h1, h2, hsnd]
  · exact strContains_intro _ _
      ("You just used the " ++ tc.name ++ " tool and got this result: ").data
      ("\n\nPlease provide a helpful, natural response to the user\x27s question using this information.\nDo NOT mention using a tool or repeat the tool call format. Just answer naturally.\n\nUser\x27s question: " ++ message).data
      (by simp only [followUpPrompt, String.data_append, List.append_assoc])
  · intro fr hsnd
    simp [processMessage, h0, h1, h2, hsnd]

theorem processMessage_toolSuccess_twoCalls_witness :
    (processMessage clientEchoFlow demoRegistry "echo hi").promptsSent =
      [initialPrompt demoRegistry "echo hi",
       followUpPrompt "echo hi" "echo"
         (Json.obj [("echoed", Json.obj [("message", Json.str "hi")])])] ∧
    strContains
      (followUpPrompt "echo hi" "echo"
        (Json.obj [("echoed", Json.obj [("message", Json.str "hi")])]))
      (stringify (Json.obj [("echoed", Json.obj [("message", Json.str "hi")])])) ∧
    (processMessage clientEchoFlow demoRegistry "echo hi").result =
      .resolved "Using tool: echo with params: \x7b\"message\":\"again\"\x7d" := by
  have h := processMessage_toolSuccess_twoCalls clientEchoFlow demoRegistry "echo hi"
    ⟨"Using tool: echo with params: \x7b\"message\":\"hi\"\x7d"⟩
    ⟨"echo", Json.obj [("message", Json.str "hi")]⟩
    (Json.obj [("echoed", Json.obj [("message", Json.str "hi")])]) rfl rfl rfl
  exact ⟨h.1, h.2.1,
    h.2.2 ⟨"Using tool: echo with params: \x7b\"message\":\"again\"\x7d"⟩ rfl⟩

/-- C5: when the model response holds no valid tool call — the regex does not
match, or it matches but the captured JSON segment fails to parse — extraction
returns `none` without raising, and `processMessage` resolves with the response
text unchanged after exactly one transport call. -/
theorem processMessage_noToolCall_passThrough
    (client : LLMClient) (tools : ToolRegistry) (message : String) (resp : LLMResponse)
    (h1 : findToolMatch resp.content.data = none ∨
          ∃ nm seg, findToolMatch resp.content.data = some (nm, seg) ∧ jsonParse seg = none)
    (h0 : client.sendMessage 0 (initialPrompt tools message) = .ok resp) :
    parseToolCall resp.content = none ∧
    (processMessage client tools message).result = .resolved resp.content ∧
    (processMessage client tools message).promptsSent = [initialPrompt tools message] := by
  have hp : parseToolCall resp.content = none := by
    rcases h1 with h | ⟨nm, seg, hfind, hjson⟩
    · simp [parseToolCall, h]
    · simp [parseToolCall, hfind, hjson]
  exact ⟨hp, by simp [processMessage, h0, hp], by simp [processMessage, h0, hp]⟩

theorem processMessage_noToolCall_passThrough_witness :
    (parseToolCall "Hello there!" = none ∧
     (processMessage clientNoTool demoRegistry "hi").result = .resolved "Hello there!" ∧
     (processMessage clientNoTool demoRegistry "hi").promptsSent =
       [initialPrompt demoRegistry "hi"]) ∧
    (parseToolCall "Using tool: echo with params: \x7bnot json\x7d" = none ∧
     (processMessage clientMalformedJson demoRegistry "hi").result =
       .resolved "Using tool: echo with params: \x7bnot json\x7d" ∧
     (processMessage clientMalformedJson demoRegistry "hi").promptsSent =
       [initialPrompt demoRegistry "hi"]) :=
  ⟨processMessage_noToolCall_passThrough clientNoTool demoRegistry "hi"
     ⟨"Hello there!"⟩ (Or.inl rfl) rfl,
   processMessage_noToolCall_passThrough clientMalformedJson demoRegistry "hi"
     ⟨"Using tool: echo with params: \x7bnot json\x7d"⟩
     (Or.inr ⟨"echo", "\x7bnot json\x7d", rfl, rfl⟩) rfl⟩

/-- C10: when the executed capability rejects with a value that is not an
`Error` instance, the resolved string is exactly
`Error executing tool <name>: Unknown error`, independent of the rejected
value — the value itself never appears in the user-facing message. -/
theorem processMessage_nonError_rejection
    (client : LLMClient) (tools : ToolRegistry) (message : String)
    (resp : LLMResponse) (tc : ToolCall) (v : Json)
    (h0 : client.sendMessage 0 (initialPrompt tools message) = .ok resp)
    (h1 : parseToolCall resp.content = some tc)
    (h2 : tools.execute tc.name tc.params = .reject (.nonError v)) :
    (processMessage client tools message).result =
      .resolved ("Error executing tool " ++ tc.name ++ ": " ++ "Unknown error") := by
  simp [processMessage, h0, h1, h2, jsErrorMessage]

theorem processMessage_nonError_rejection_witness :
    (processMessage clientBare demoRegistry "hi").result =
      .resolved "Error executing tool bare: Unknown error" :=
  processMessage_nonError_rejection clientBare demoRegistry "hi"
    ⟨"Using tool: bare with params: \x7b\x7d"⟩ ⟨"bare", Json.obj []⟩
    (Json.str "disk full") rfl rfl rfl

/-- C4: for every capability name made of `[\w-]` characters and containing a
hyphen (e.g. `get-time`), extraction of `Using tool: <name> with params: \x7b\x7d`
succeeds and yields the parsed call with that name and an empty argument
mapping. -/
theorem parseToolCall_hyphenated (nm : String) (hne : nm.data ≠ [])
    (hchars : ∀ c ∈ nm.data, nameChar c = true) (_hhyphen : '-' ∈ nm.data) :
    parseToolCall ("Using tool: " ++ nm ++ " with params: \x7b\x7d") =
      some ⟨nm, Json.obj []⟩ := by
  have hl : ("Using tool: " ++ nm ++ " with params: \x7b\x7d").data =
      "Using tool:".data ++ ' ' :: nm.data ++ ' ' :: "with params:".data ++
        ' ' :: lbrace :: [rbrace] := by
    simp only [String.data_append]
    simp [show lbrace = '\x7b' from rfl, show rbrace = '\x7d' from rfl]
  have hfind := findToolMatch_canonical "Using tool:".data "with params:".data nm
      [rbrace] [rbrace] _ hl rfl rfl hne hchars (by decide)
  simp only [parseToolCall, hfind, jsonParse_braces]

theorem parseToolCall_hyphenated_witness :
    parseToolCall ("Using tool: " ++ "get-time" ++ " with params: \x7b\x7d") =
      some ⟨"get-time", Json.obj []⟩ ∧
    parseToolCall "Using tool: get-time with params: \x7b\x7d" =
      some ⟨"get-time", Json.obj []⟩ :=
  ⟨parseToolCall_hyphenated "get-time" (by decide) (by decide) (by decide), rfl⟩

/-- C9: tool-call extraction matches the textual markers case-insensitively:
for every ASCII-case variant `m1` of `Using tool:` and `m2` of `with params:`,
and every `[\w-]+` capability name, extraction of `<m1> <name> <m2> \x7b\x7d`
succeeds and yields the same parsed call as the canonical spelling. -/
theorem parseToolCall_marker_caseInsensitive (m1 m2 : List Char) (nm : String)
    (hm1 : m1.map foldCaseNat = "Using tool:".data.map foldCaseNat)
    (hm2 : m2.map foldCaseNat = "with params:".data.map foldCaseNat)
    (hne : nm.data ≠ []) (hchars : ∀ c ∈ nm.data, nameChar c = true) :
    parseToolCall (⟨m1⟩ ++ " " ++ nm ++ " " ++ (⟨m2⟩ : String) ++ " \x7b\x7d") =
      some ⟨nm, Json.obj []⟩ ∧
    parseToolCall (⟨m1⟩ ++ " " ++ nm ++ " " ++ (⟨m2⟩ : String) ++ " \x7b\x7d") =
      parseToolCall ("Using tool: " ++ nm ++ " with params: \x7b\x7d") := by
  have hl1 : ((⟨m1⟩ : String) ++ " " ++ nm ++ " " ++ (⟨m2⟩ : String) ++ " \x7b\x7d").data =
      m1 ++ ' ' :: nm.data ++ ' ' :: m2 ++ ' ' :: lbrace :: [rbrace] := by
    simp only [String.data_append, data_mk]
    simp [show lbrace = '\x7b' from rfl, show rbrace = '\x7d' from rfl]
  have hf1 := findToolMatch_canonical m1 m2 nm [rbrace] [rbrace] _ hl1 hm1 hm2
      hne hchars (by decide)
  have hl2 : ("Using tool: " ++ nm ++ " with params: \x7b\x7d").data =
      "Using tool:".data ++ ' ' :: nm.data ++ ' ' :: "with params:".data ++
        ' ' :: lbrace :: [rbrace] := by
    simp only [String.data_append]
    simp [show lbrace = '\x7b' from rfl, show rbrace = '\x7d' from rfl]
  have hf2 := findToolMatch_canonical "Using tool:".data "with params:".data nm
      [rbrace] [rbrace] _ hl2 rfl rfl hne hchars (by decide)
  constructor
  · simp only [parseToolCall, hf1, jsonParse_braces]
  · simp only [parseToolCall, hf1, hf2]

theorem parseToolCall_marker_caseInsensitive_witness :
    parseToolCall ("USING TOOL:" ++ " " ++ "echo" ++ " " ++ "With Params:" ++ " \x7b\x7d") =
      some ⟨"echo", Json.obj []⟩ ∧
    parseToolCall ("USING TOOL:" ++ " " ++ "echo" ++ " " ++ "With Params:" ++ " \x7b\x7d") =
      parseToolCall ("Using tool: " ++ "echo" ++ " with params: \x7b\x7d") :=
  parseToolCall_marker_caseInsensitive "USING TOOL:".data "With Params:".data "echo"
    (by decide) (by decide) (by decide) (by decide)

/-- C6 counterexample: two occurrences of the pattern on one line; the greedy
`.*` makes the captured segment span from the first opening brace to the last
closing brace of the line (second conjunct), JSON parsing of that segment
fails, and extraction returns `none` — not the call of the first occurrence. -/
theorem parseToolCall_multiOccurrence_counterexample :
    parseToolCall
      "Using tool: alpha with params: \x7b\x7d Using tool: beta with params: \x7b\x7d" =
      none ∧
    findToolMatch
      ("Using tool: alpha with params: \x7b\x7d Using tool: beta with params: \x7b\x7d").data =
      some ("alpha", "\x7b\x7d Using tool: beta with params: \x7b\x7d") :=
  ⟨rfl, rfl⟩

/-- C6 (amended): the regex still matches at the first occurrence, but the
captured JSON segment is the greedy `.`-run up to the last closing brace on the
first occurrence's line.  A later occurrence on a different line therefore has
no effect — the first call is returned (first conjunct) — while a later
occurrence on the same line corrupts the captured segment, JSON parsing fails,
and extraction returns absent (second conjunct). -/
theorem parseToolCall_first_occurrence_amended :
    (∀ nm1 nm2 : String, nm1.data ≠ [] → (∀ c ∈ nm1.data, nameChar c = true) →
      parseToolCall ("Using tool: " ++ nm1 ++ " with params: \x7b\x7d\nUsing tool: " ++
        nm2 ++ " with params: \x7b\x7d") = some ⟨nm1, Json.obj []⟩) ∧
    (∀ nm1 nm2 : String, nm1.data ≠ [] → (∀ c ∈ nm1.data, nameChar c = true) →
      (∀ c ∈ nm2.data, nameChar c = true) →
      parseToolCall ("Using tool: " ++ nm1 ++ " with params: \x7b\x7d Using tool: " ++
        nm2 ++ " with params: \x7b\x7d") = none) := by
  constructor
  · intro nm1 nm2 hne1 hchars1
    have hl : ("Using tool: " ++ nm1 ++ " with params: \x7b\x7d\nUsing tool: " ++ nm2 ++
        " with params: \x7b\x7d").data =
        "Using tool:".data ++ ' ' :: nm1.data ++ ' ' :: "with params:".data ++
          ' ' :: lbrace :: (rbrace :: '\n' ::
            ("Using tool: ".data ++ nm2.data ++ " with params: \x7b\x7d".data)) := by
      simp only [String.data_append]
      simp [show lbrace = '\x7b' from rfl, show rbrace = '\x7d' from rfl]
    have hg : lastCloseBrace ((rbrace :: '\n' ::
        ("Using tool: ".data ++ nm2.data ++
          " with params: \x7b\x7d".data)).takeWhile dotChar) = some [rbrace] := by
      simp [List.takeWhile_cons, show dotChar rbrace = true from rfl,
        show dotChar '\n' = false from rfl, lastCloseBrace]
    have hfind := findToolMatch_canonical "Using tool:".data "with params:".data nm1
        (rbrace :: '\n' :: ("Using tool: ".data ++ nm2.data ++ " with params: \x7b\x7d".data))
        [rbrace] _ hl rfl rfl hne1 hchars1 hg
    simp only [parseToolCall, hfind, jsonParse_braces]
  · intro nm1 nm2 hne1 hchars1 hchars2
    have hl : ("Using tool: " ++ nm1 ++ " with params: \x7b\x7d Using tool: " ++ nm2 ++
        " with params: \x7b\x7d").data =
        "Using tool:".data ++ ' ' :: nm1.data ++ ' ' :: "with params:".data ++
          ' ' :: lbrace :: (rbrace :: ' ' ::
            ("Using tool: ".data ++ nm2.data ++ " with params: \x7b\x7d".data)) := by
      simp only [String.data_append]
      simp [show lbrace = '\x7b' from rfl, show rbrace = '\x7d' from rfl]
    have hall : ∀ c ∈ rbrace :: ' ' ::
        ("Using tool: ".data ++ nm2.data ++ " with params: \x7b\x7d".data),
        dotChar c = true := by
      have hA : ∀ c ∈ ("Using tool: " : String).data, dotChar c = true := by decide
      have hC : ∀ c ∈ (" with params: \x7b\x7d" : String).data, dotChar c = true := by decide
      intro c hc
      rcases List.mem_cons.mp hc with rfl | hc
      · rfl
      rcases List.mem_cons.mp hc with rfl | hc
      · rfl
      rcases List.mem_append.mp hc with hc | h
      · rcases List.mem_append.mp hc with h | h
        · exact hA c h
        · exact dotChar_of_nameChar c (hchars2 c h)
      · exact hC c h
    have htake := takeWhile_eq_self_of_all dotChar
      (rbrace :: ' ' :: ("Using tool: ".data ++ nm2.data ++ " with params: \x7b\x7d".data)) hall
    have hsplit : rbrace :: ' ' ::
        ("Using tool: ".data ++ nm2.data ++ " with params: \x7b\x7d".data) =
        (rbrace :: ' ' :: ("Using tool: ".data ++ nm2.data ++
          (' ' :: "with params:".data ++ [' ', lbrace]))) ++ [rbrace] := by
      rw [show (" with params: \x7b\x7d" : String).data =
        (' ' :: "with params:".data) ++ [' ', lbrace, rbrace] from rfl]
      simp
    have hg2 : lastCloseBrace ((rbrace :: ' ' ::
        ("Using tool: ".data ++ nm2.data ++
          " with params: \x7b\x7d".data)).takeWhile dotChar) =
        some (rbrace :: ' ' ::
          ("Using tool: ".data ++ nm2.data ++ " with params: \x7b\x7d".data)) := by
      rw [htake, hsplit]
      exact lastCloseBrace_append_rbrace _
    have hfind := findToolMatch_canonical "Using tool:".data "with params:".data nm1
        (rbrace :: ' ' :: ("Using tool: ".data ++ nm2.data ++ " with params: \x7b\x7d".data))
        (rbrace :: ' ' :: ("Using tool: ".data ++ nm2.data ++ " with params: \x7b\x7d".data))
        _ hl rfl rfl hne1 hchars1 hg2
    have hjson : jsonParse ⟨lbrace :: rbrace :: ' ' ::
        ("Using tool: ".data ++ nm2.data ++ " with params: \x7b\x7d".data)⟩ = none := by
      rw [show ("Using tool: " : String).data = 'U' :: "sing tool: ".data from rfl]
      simp only [List.cons_append]
      exact jsonParse_obj_trailing _
    simp only [parseToolCall, hfind, hjson]

theorem parseToolCall_first_occurrence_amended_witness :
    parseToolCall ("Using tool: " ++ "alpha" ++ " with params: \x7b\x7d\nUsing tool: " ++
      "beta" ++ " with params: \x7b\x7d") = some ⟨"alpha", Json.obj []⟩ ∧
    parseToolCall ("Using tool: " ++ "alpha" ++ " with params: \x7b\x7d Using tool: " ++
      "beta" ++ " with params: \x7b\x7d") = none :=
  ⟨parseToolCall_first_occurrence_amended.1 "alpha" "beta" (by decide) (by decide),
   parseToolCall_first_occurrence_amended.2 "alpha" "beta" (by decide) (by decide) (by decide)⟩

end Agent
